import Mathlib

/-!
Shallow embedding of the adaptive-difficulty / progress-persistence core of
the `smart_kids_math_portable` application
(`src/core/game_manager.py`, `src/config.py`).

Modelling conventions:
* Python `dict`s that the code treats as records of fixed shape
  (`GameRecord`, history entries) become Lean structures.
* The `games` and `difficulty_settings` dictionaries become association
  lists (`List (String × _)`), preserving Python-dict insertion order.
* Python `float` arithmetic is modelled with `ℚ`.  On every value the
  program can actually produce the binary64 computation agrees with the
  exact rational one: `int(10 * (1 + d*0.1)) = 10 + d` for all difficulty
  levels `d ∈ [0, 11]`, the adjustment success rates are the exact
  multiples `k/5`, and the win-rate nudge comparisons against
  `0.9/0.8/0.2/0.3` agree with the exact comparisons for all realisable
  numerators/denominators.
* Wall-clock values (`datetime.now()`, `timestamp` fields, `time_taken`)
  are either abstracted into parameters or omitted when no claim mentions
  them; `timestamp` strings are not modelled at all.
* `save_progress` performs file I/O and refreshes `last_played`; neither
  is part of the in-memory profile state the claims are about, so the
  model treats persistence as the identity on the modelled fields.
-/

/-- One element of a game record's `history` list
(`update_game_result`, game_manager.py lines 139-147).
The `timestamp` field (a wall-clock string) is not modelled.
`details` is stored only when the passed dict is truthy, hence `Option`;
its payload is abstracted to a `String` key since no logic reads it. -/
structure HistoryEntry where
  won : Bool
  score : Int
  time_taken : ℚ
  difficulty : Int
  details : Option String
  deriving Repr, DecidableEq

/-- One entry of the `games` mapping (the per-game-type dict created in
`_load_progress` and mutated by `update_game_result` /
`_adjust_difficulty`). -/
structure GameRecord where
  level : Int
  games_played : Nat
  games_won : Nat
  current_difficulty : Int
  history : List HistoryEntry
  deriving Repr, DecidableEq

/-- Constant `ADAPTIVE_SETTINGS['min_games_before_adjust']` (config.py line 113). -/
def minGamesBeforeAdjust : Nat := 5

/-- Constant `ADAPTIVE_SETTINGS['difficulty_increase_threshold']` (config.py line 114). -/
def difficultyIncreaseThreshold : ℚ := 85 / 100

/-- Constant `ADAPTIVE_SETTINGS['difficulty_decrease_threshold']` (config.py line 115). -/
def difficultyDecreaseThreshold : ℚ := 55 / 100

/-- Python `l[-n:]`: the last `n` elements (the whole list when
`l.length ≤ n`, because `Nat` subtraction truncates at 0 exactly as
Python clamps the negative index). -/
def lastN {α : Type _} (n : Nat) (l : List α) : List α :=
  l.drop (l.length - n)

/-- Method `GameProgress._adjust_difficulty` (game_manager.py lines 161-183),
restricted to one game record (the Python method mutates
`self.data['games'][game_type]` in place). -/
def adjustDifficulty (r : GameRecord) : GameRecord :=
  if r.history.length < minGamesBeforeAdjust then r
  else
    let recent_games := lastN minGamesBeforeAdjust r.history
    let success_rate : ℚ :=
      ((recent_games.countP (fun g => g.won)) : ℚ) / (recent_games.length : ℚ)
    if success_rate ≥ difficultyIncreaseThreshold then
      { r with current_difficulty := min (r.current_difficulty + 1) 10 }
    else if success_rate ≤ difficultyDecreaseThreshold then
      { r with current_difficulty := max (r.current_difficulty - 1) 1 }
    else r

/-- The history entry built in `update_game_result`
(game_manager.py lines 139-147): it captures the record's
`current_difficulty` as it stands when the entry is built, i.e. before
`_adjust_difficulty` runs. -/
def mkHistoryEntry (r : GameRecord) (won : Bool) (score : Int)
    (time_taken : ℚ) (details : Option String) : HistoryEntry :=
  { won := won, score := score, time_taken := time_taken,
    difficulty := r.current_difficulty, details := details }

/-- Method `GameProgress.update_game_result` (game_manager.py lines 130-159),
restricted to the mutated game record: increment counters, append the
history entry, keep only the most recent 50 entries, then adjust the
difficulty.  (The trailing `save_progress` call is persistence only.) -/
def updateGameResult (r : GameRecord) (won : Bool) (score : Int)
    (time_taken : ℚ) (details : Option String) : GameRecord :=
  let r1 : GameRecord :=
    { r with games_played := r.games_played + 1,
             games_won := r.games_won + (if won then 1 else 0) }
  let entry := mkHistoryEntry r won score time_taken details
  let h := r1.history ++ [entry]
  let h2 := if h.length > 50 then lastN 50 h else h
  adjustDifficulty { r1 with history := h2 }

/-- The dictionary returned by `GameProgress.get_game_stats`
(game_manager.py lines 185-198). -/
structure GameStats where
  level : Int
  games_played : Nat
  games_won : Nat
  win_rate : ℚ
  current_difficulty : Int
  recent_performance : List Bool
  deriving Repr, DecidableEq

/-- Method `GameProgress._get_recent_performance` (game_manager.py lines 200-203)
with the default `n = 10`. -/
def getRecentPerformance (r : GameRecord) : List Bool :=
  (lastN 10 r.history).map (fun g => g.won)

/-- Method `GameProgress.get_game_stats` (game_manager.py lines 185-198).
`won / total if total > 0 else 0` becomes an `if` on the counter. -/
def getGameStats (r : GameRecord) : GameStats :=
  { level := r.level,
    games_played := r.games_played,
    games_won := r.games_won,
    win_rate :=
      if r.games_played > 0 then
        (r.games_won : ℚ) / (r.games_played : ℚ)
      else 0,
    current_difficulty := r.current_difficulty,
    recent_performance := getRecentPerformance r }

/-- The player profile (`self.data` of `GameProgress`), restricted to the
fields the core logic reads.  `games := none` models a parsed save file
without a `'games'` key (then `self.data.get('games', {})` hands the
migration an orphan dict and `self.data['games']` raises `KeyError`).
`difficulty_settings` is read only through `.get('difficulty_settings', {})`,
where an absent key behaves like an empty dict, so it is a plain list.
`birth_date` folds the `try: split / int / dt.date` parse of
`get_difficulty` into an `Option`: `some (y, m, d)` is a stored string
that parses to the valid date `y-m-d`; `none` is an absent, falsy, or
unparsable string (the `except: pass` path).
`created_at` / `last_played` timestamps are not modelled. -/
structure Profile where
  player_name : String
  total_coins : Int
  total_stars : Int
  games : Option (List (String × GameRecord))
  difficulty_settings : List (String × Int)
  birth_date : Option (Int × Int × Int)
  achievements : List String
  deriving Repr, DecidableEq

/-- The seven game-type ids present in the default data of
`_load_progress` (game_manager.py lines 31-80), in insertion order. -/
def knownGameTypes : List String :=
  ["find_difference", "counting", "simple_math", "music_theory",
   "staff_reading", "rhythm", "interval"]

/-- The zeroed per-game record of the default data
(`level 1, 0 played, 0 won, difficulty 1, empty history`). -/
def defaultGameRecord : GameRecord :=
  { level := 1, games_played := 0, games_won := 0,
    current_difficulty := 1, history := [] }

/-- The default profile built by `_load_progress` when no save file
exists or reading/parsing it fails (game_manager.py lines 25-84). -/
def defaultData : Profile :=
  { player_name := "小朋友",
    total_coins := 0,
    total_stars := 0,
    games := some (knownGameTypes.map (fun gt => (gt, defaultGameRecord))),
    difficulty_settings := [],
    birth_date := none,
    achievements := [] }

/-- Method `GameProgress._load_progress` (game_manager.py lines 16-27):
`some p` models an existing save file whose JSON decodes to `p`;
`none` models a missing file or any read/parse error, both of which
fall through to the default data. -/
def loadProgress (saved : Option Profile) : Profile :=
  saved.getD defaultData

/-- The three game-type ids `_migrate_data` backfills
(game_manager.py lines 97, 104, 116). -/
def migrationTargets : List String := ["staff_reading", "rhythm", "interval"]

/-- The record `_migrate_data` installs for a missing new game type:
derived from `music_theory` (aggregates floor-divided by 3, empty
history) when that record exists, zeroed otherwise
(game_manager.py lines 100-125). -/
def migratedRecord (games : List (String × GameRecord)) : GameRecord :=
  match games.lookup "music_theory" with
  | some music_data =>
      { level := music_data.level,
        games_played := music_data.games_played / 3,
        games_won := music_data.games_won / 3,
        current_difficulty := music_data.current_difficulty,
        history := [] }
  | none => defaultGameRecord

/-- One iteration of the backfill loop: `if game_type not in games:
games[game_type] = record` (dict insertion appends the new key). -/
def addMissing (gs : List (String × GameRecord)) (gt : String)
    (r : GameRecord) : List (String × GameRecord) :=
  if (gs.lookup gt).isSome then gs else gs ++ [(gt, r)]

/-- The backfill loop of `_migrate_data` over
`['staff_reading', 'rhythm', 'interval']`; the inserted record is
computed from the `games` dict as it stands before the loop. -/
def migrateGames (gs : List (String × GameRecord)) :
    List (String × GameRecord) :=
  let r := migratedRecord gs
  addMissing (addMissing (addMissing gs "staff_reading" r) "rhythm" r)
    "interval" r

/-- Method `GameProgress._migrate_data` (game_manager.py lines 93-128).
With no `'games'` key the loop mutates the orphan dict returned by
`.get('games', {})`, so the stored profile is unchanged; with all three
new ids present it returns before touching anything.  The trailing
`save_progress()` only persists and refreshes `last_played`. -/
def migrateData (p : Profile) : Profile :=
  match p.games with
  | none => p
  | some gs =>
      if ((gs.lookup "staff_reading").isSome && (gs.lookup "rhythm").isSome
          && (gs.lookup "interval").isSome) then p
      else { p with games := some (migrateGames gs) }

/-- Method `GameProgress.__init__` (game_manager.py lines 12-14):
load, then migrate. -/
def initProgress (saved : Option Profile) : Profile :=
  migrateData (loadProgress saved)

/-- The age table of `GameManager.get_difficulty`
(game_manager.py lines 291-321): `months` is the calendar-month count
`(today.year - birth.year) * 12 + today.month - birth.month`; an absent
or unparsable `birth_date` keeps the default baseline 5. -/
def ageBaseDifficulty (todayY todayM : Int)
    (birth : Option (Int × Int × Int)) : Int :=
  match birth with
  | none => 5
  | some (year, month, _day) =>
      let months := (todayY - year) * 12 + todayM - month
      if months < 42 then 1
      else if months < 48 then 2
      else if months < 54 then 3
      else if months < 60 then 4
      else if months < 66 then 5
      else if months < 72 then 6
      else if months < 84 then 7
      else if months < 96 then 8
      else if months < 108 then 9
      else 10

/-- Method `GameManager.get_difficulty` (game_manager.py lines 281-342).
Result `none` models the uncaught `KeyError` of
`self.progress.data['games']` when the profile has no `'games'` key
(reached only when no manual override matches).  Today's date is the
pair `(todayY, todayM)` since the day of month is never used. -/
def getDifficulty (todayY todayM : Int) (p : Profile)
    (game_type : String) : Option Int :=
  match p.difficulty_settings.lookup game_type with
  | some v => some (min (max v 1) 10)
  | none =>
      let base_difficulty := ageBaseDifficulty todayY todayM p.birth_date
      match p.games with
      | none => none
      | some gs =>
          let game_data := gs.lookup game_type
          let played := (game_data.map (fun g => g.games_played)).getD 0
          let nudged :=
            if played > 3 then
              let won := (game_data.map (fun g => g.games_won)).getD 0
              let win_rate : ℚ := (won : ℚ) / (played : ℚ)
              if win_rate > 9 / 10 then min (base_difficulty + 2) 10
              else if win_rate > 8 / 10 then min (base_difficulty + 1) 10
              else if win_rate < 2 / 10 then max (base_difficulty - 2) 1
              else if win_rate < 3 / 10 then max (base_difficulty - 1) 1
              else base_difficulty
            else base_difficulty
          some (min (max nudged 1) 10)

/-- The transient session dict built by `GameManager.start_game`
(game_manager.py lines 236-243).  `start_time` is a wall clock and is
abstracted away: `end_game` receives the elapsed `time_taken` as a
parameter instead of computing `now - start_time`. -/
structure Session where
  gtype : String
  score : Int
  completed : Bool
  deriving Repr, DecidableEq

/-- State of a `GameManager`: the persisted profile plus the current session
(`sound_enabled` / `music_enabled` are UI toggles no claim touches). -/
structure GMState where
  progress : Profile
  current_game : Option Session
  deriving Repr, DecidableEq

/-- Method `GameManager.start_game` (game_manager.py lines 236-243). -/
def startGame (st : GMState) (gt : String) : GMState :=
  { st with current_game := some { gtype := gt, score := 0, completed := false } }

/-- The coin formula of `GameManager.end_game`
(`int(base_coins * (1 + difficulty * 0.1))` with `base_coins = 10`,
game_manager.py lines 266-268), in exact arithmetic.  Python's `int()`
truncates toward zero; the value is nonnegative for every difficulty the
program stores (they are clamped to `[1, 10]`), so truncation and floor
coincide, and the binary64 evaluation equals this exact floor on that
whole range. -/
def calcCoins (difficulty : Int) : Int :=
  ⌊(10 : ℚ) * (1 + (difficulty : ℚ) * (1 / 10))⌋

/-- The star award of `GameManager.end_game`
(game_manager.py lines 271-277). -/
def calcStars (score : Int) : Int :=
  if score ≥ 90 then 3 else if score ≥ 70 then 2 else 1

/-- In-place update of one key of the `games` dict (Python mutates
`self.data['games'][game_type]`; dict keys are unique, so mapping over
the association list is the same operation). -/
def updateAt (gs : List (String × GameRecord)) (gt : String)
    (f : GameRecord → GameRecord) : List (String × GameRecord) :=
  gs.map (fun p => if p.1 == gt then (p.1, f p.2) else p)

/-- Method `GameManager.end_game` (game_manager.py lines 249-279): no-op when
no session is active; otherwise record the result, and on a win read the
record's `current_difficulty` AFTER `update_game_result` (which has
already run `_adjust_difficulty`), award coins and stars, and clear the
session.  Result `none` models the uncaught `KeyError` when the profile
has no `'games'` key or no record for the session's game type. -/
def endGame (st : GMState) (won : Bool) (score : Int) (time_taken : ℚ)
    (details : Option String) : Option GMState :=
  match st.current_game with
  | none => some st
  | some s =>
      match st.progress.games with
      | none => none
      | some gs =>
          match gs.lookup s.gtype with
          | none => none
          | some _ =>
              let gs' := updateAt gs s.gtype
                (fun r => updateGameResult r won score time_taken details)
              let p1 := { st.progress with games := some gs' }
              let p2 :=
                if won then
                  let difficulty :=
                    ((gs'.lookup s.gtype).map
                      (fun g => g.current_difficulty)).getD 0
                  { p1 with
                    total_coins := p1.total_coins + calcCoins difficulty,
                    total_stars := p1.total_stars + calcStars score }
                else p1
              some { progress := p2, current_game := none }

/-- Method `GameManager.get_difficulty` as a state transformer, to express its
frame property: the method body only reads `self.progress.data` (no
assignment, no `save_progress` call), so the state it returns alongside
the value is the input state. -/
def getDifficultyRun (todayY todayM : Int) (st : GMState)
    (game_type : String) : Option Int × GMState :=
  (getDifficulty todayY todayM st.progress game_type, st)

/-- One call argument tuple of `update_game_result`:
`(won, score, time_taken, details)`. -/
abbrev ResultInput := Bool × Int × ℚ × Option String

/-- A sequence of `update_game_result` calls on one game record. -/
def playSeq (r : GameRecord) (xs : List ResultInput) : GameRecord :=
  xs.foldl (fun acc x => updateGameResult acc x.1 x.2.1 x.2.2.1 x.2.2.2) r

/-- The history entries appended by a sequence of `update_game_result`
calls, in call order (each entry captures the evolving record's
difficulty at its own call). -/
def entriesOf (r : GameRecord) (xs : List ResultInput) : List HistoryEntry :=
  match xs with
  | [] => []
  | x :: rest =>
      mkHistoryEntry r x.1 x.2.1 x.2.2.1 x.2.2.2 ::
        entriesOf (updateGameResult r x.1 x.2.1 x.2.2.1 x.2.2.2) rest

/-! ### Helper lemmas about `lastN` (Python's `l[-n:]`) -/

theorem lastN_eq_reverse_take {α : Type _} (n : Nat) (l : List α) :
    lastN n l = (l.reverse.take n).reverse := by
  rw [List.take_reverse, List.reverse_reverse]
  rfl

theorem lastN_of_length_le {α : Type _} {n : Nat} {l : List α}
    (h : l.length ≤ n) : lastN n l = l := by
  unfold lastN
  have hz : l.length - n = 0 := by omega
  rw [hz, List.drop_zero]

theorem length_lastN {α : Type _} (n : Nat) (l : List α) :
    (lastN n l).length = min n l.length := by
  unfold lastN
  rw [List.length_drop]
  omega

theorem lastN_lastN {α : Type _} {m n : Nat} (l : List α) (h : m ≤ n) :
    lastN m (lastN n l) = lastN m l := by
  unfold lastN
  rw [List.drop_drop]
  congr 1
  rw [List.length_drop]
  omega

theorem lastN_append_lastN {α : Type _} (n : Nat) (a b : List α) :
    lastN n (lastN n a ++ b) = lastN n (a ++ b) := by
  simp only [lastN_eq_reverse_take, List.reverse_append, List.reverse_reverse]
  rw [List.take_append_eq_append_take, List.take_append_eq_append_take,
    List.take_take, Nat.min_eq_left (Nat.sub_le _ _)]

/-! ### Helper lemmas about the record operations -/

theorem adjustDifficulty_history (r : GameRecord) :
    (adjustDifficulty r).history = r.history := by
  unfold adjustDifficulty
  split
  · rfl
  · dsimp only
    split
    · rfl
    · split <;> rfl

theorem adjustDifficulty_games_played (r : GameRecord) :
    (adjustDifficulty r).games_played = r.games_played := by
  unfold adjustDifficulty
  split
  · rfl
  · dsimp only
    split
    · rfl
    · split <;> rfl

theorem adjustDifficulty_games_won (r : GameRecord) :
    (adjustDifficulty r).games_won = r.games_won := by
  unfold adjustDifficulty
  split
  · rfl
  · dsimp only
    split
    · rfl
    · split <;> rfl

theorem updateGameResult_history (r : GameRecord) (won : Bool) (score : Int)
    (tt : ℚ) (details : Option String) :
    (updateGameResult r won score tt details).history =
      lastN 50 (r.history ++ [mkHistoryEntry r won score tt details]) := by
  unfold updateGameResult
  dsimp only
  rw [adjustDifficulty_history]
  dsimp only
  split
  · rfl
  · next h => exact (lastN_of_length_le (by omega)).symm

theorem updateGameResult_games_played (r : GameRecord) (won : Bool)
    (score : Int) (tt : ℚ) (details : Option String) :
    (updateGameResult r won score tt details).games_played =
      r.games_played + 1 := by
  unfold updateGameResult
  dsimp only
  rw [adjustDifficulty_games_played]

theorem updateGameResult_games_won (r : GameRecord) (won : Bool)
    (score : Int) (tt : ℚ) (details : Option String) :
    (updateGameResult r won score tt details).games_won =
      r.games_won + (if won then 1 else 0) := by
  unfold updateGameResult
  dsimp only
  rw [adjustDifficulty_games_won]

theorem getLast?_lastN_concat {α : Type _} (n : Nat) (hn : 0 < n)
    (l : List α) (e : α) : (lastN n (l ++ [e])).getLast? = some e := by
  obtain ⟨k, rfl⟩ : ∃ k, n = k + 1 := ⟨n - 1, by omega⟩
  rw [lastN_eq_reverse_take, List.getLast?_reverse]
  simp [List.reverse_append]

/-- C7: every `update_game_result` call appends a history entry whose
`difficulty` field is the game-type's `current_difficulty` in effect
before the call (the difficulty the finished game was played at), not
the recomputed one; `games_played` grows by 1 and `games_won` grows by 1
iff `won`. -/
theorem c7_record_bookkeeping (r : GameRecord) (won : Bool) (score : Int)
    (tt : ℚ) (details : Option String) :
    (updateGameResult r won score tt details).history.getLast? =
      some { won := won, score := score, time_taken := tt,
             difficulty := r.current_difficulty, details := details } ∧
    (updateGameResult r won score tt details).games_played =
      r.games_played + 1 ∧
    (updateGameResult r won score tt details).games_won =
      r.games_won + (if won then 1 else 0) := by
  refine ⟨?_, updateGameResult_games_played r won score tt details,
    updateGameResult_games_won r won score tt details⟩
  rw [updateGameResult_history]
  exact getLast?_lastN_concat 50 (by omega) _ _

/-- C8: `get_game_stats` defines `win_rate` as `games_won / games_played`
when `games_played > 0` and as `0` when `games_played = 0` (no division
error), and under the invariant `games_won ≤ games_played` the result
lies in `[0, 1]`. -/
theorem c8_win_rate_spec (r : GameRecord)
    (h : r.games_won ≤ r.games_played) :
    (r.games_played = 0 → (getGameStats r).win_rate = 0) ∧
    (0 < r.games_played →
      (getGameStats r).win_rate = (r.games_won : ℚ) / (r.games_played : ℚ)) ∧
    0 ≤ (getGameStats r).win_rate ∧ (getGameStats r).win_rate ≤ 1 := by
  unfold getGameStats
  dsimp only
  by_cases hp : r.games_played > 0
  · rw [if_pos hp]
    refine ⟨fun h0 => absurd h0 (by omega), fun _ => rfl, by positivity, ?_⟩
    rw [div_le_one (by exact_mod_cast hp)]
    exact_mod_cast h
  · rw [if_neg hp]
    exact ⟨fun _ => rfl, fun hp' => absurd hp' hp, le_refl 0, by norm_num⟩

theorem c8_win_rate_witness :
    (getGameStats defaultGameRecord).win_rate = 0 :=
  (c8_win_rate_spec defaultGameRecord (by decide)).1 rfl

/-- C10: `get_difficulty` is read-only — as a state transformer it
returns the input state untouched (its body neither assigns to
`self.progress.data` nor calls `save_progress`). -/
theorem c10_get_difficulty_readonly (todayY todayM : Int) (st : GMState)
    (game_type : String) :
    (getDifficultyRun todayY todayM st game_type).2 = st := rfl

/-- C4: a manual override in `difficulty_settings[game_type]` makes
`get_difficulty` return that value clamped to `[1, 10]`, whatever the
rest of the profile holds. -/
theorem c4_manual_override (todayY todayM : Int) (p : Profile)
    (game_type : String) (v : Int)
    (h : p.difficulty_settings.lookup game_type = some v) :
    getDifficulty todayY todayM p game_type = some (min (max v 1) 10) := by
  unfold getDifficulty
  rw [h]

/-- A profile carrying a manual override together with a birth date, full
history, and a high win rate, so that the override has something to
bypass. -/
def overrideProfile : Profile :=
  { player_name := "p",
    total_coins := 3,
    total_stars := 4,
    games := some [("counting",
      { level := 2, games_played := 20, games_won := 20,
        current_difficulty := 9, history := [] })],
    difficulty_settings := [("counting", 7)],
    birth_date := some (2018, 1, 15),
    achievements := [] }

theorem c4_manual_override_witness :
    getDifficulty 2026 10 overrideProfile "counting" = some 7 := by
  have h := c4_manual_override 2026 10 overrideProfile "counting" 7 (by decide)
  rw [h]
  norm_num

theorem adjustDifficulty_cd (r : GameRecord) :
    (adjustDifficulty r).current_difficulty =
      if r.history.length < minGamesBeforeAdjust then r.current_difficulty
      else if ((lastN minGamesBeforeAdjust r.history).countP
            (fun g => g.won) : ℚ) /
            ((lastN minGamesBeforeAdjust r.history).length : ℚ) ≥
            difficultyIncreaseThreshold then
        min (r.current_difficulty + 1) 10
      else if ((lastN minGamesBeforeAdjust r.history).countP
            (fun g => g.won) : ℚ) /
            ((lastN minGamesBeforeAdjust r.history).length : ℚ) ≤
            difficultyDecreaseThreshold then
        max (r.current_difficulty - 1) 1
      else r.current_difficulty := by
  unfold adjustDifficulty
  split
  · rfl
  · dsimp only
    split
    · rfl
    · split <;> rfl

/-- C3: after `update_game_result` appends the new entry, the difficulty
is unchanged when the history holds fewer than 5 entries; otherwise,
with `success_rate` the number of wins among exactly the last 5 entries
divided by 5, the difficulty becomes `min(old+1, 10)` when
`success_rate ≥ 0.85`, `max(old-1, 1)` when `success_rate ≤ 0.55`, and
stays unchanged in between — always a step of exactly 1. -/
theorem c3_adjustment_rule (r : GameRecord) (won : Bool) (score : Int)
    (tt : ℚ) (details : Option String) :
    (updateGameResult r won score tt details).current_difficulty =
      (if (r.history ++ [mkHistoryEntry r won score tt details]).length < 5 then
        r.current_difficulty
      else if ((lastN 5 (r.history ++ [mkHistoryEntry r won score tt details])).countP
            (fun g => g.won) : ℚ) / 5 ≥ 85 / 100 then
        min (r.current_difficulty + 1) 10
      else if ((lastN 5 (r.history ++ [mkHistoryEntry r won score tt details])).countP
            (fun g => g.won) : ℚ) / 5 ≤ 55 / 100 then
        max (r.current_difficulty - 1) 1
      else r.current_difficulty) := by
  unfold updateGameResult
  dsimp only
  rw [adjustDifficulty_cd]
  dsimp only
  simp only [minGamesBeforeAdjust, difficultyIncreaseThreshold,
    difficultyDecreaseThreshold]
  generalize r.history ++ [mkHistoryEntry r won score tt details] = H
  by_cases hbig : H.length > 50
  · rw [if_pos hbig]
    have h5 : lastN 5 (lastN 50 H) = lastN 5 H := lastN_lastN H (by omega)
    have h50 : (lastN 50 H).length = 50 := by rw [length_lastN]; omega
    have hlen5 : (lastN 5 H).length = 5 := by rw [length_lastN]; omega
    simp only [h5, h50, hlen5]
    rw [if_neg (show ¬((50:ℕ) < 5) by omega), if_neg (show ¬(H.length < 5) by omega)]
    norm_num
  · rw [if_neg hbig]
    by_cases hlt : H.length < 5
    · rw [if_pos hlt, if_pos hlt]
    · have hlen5 : (lastN 5 H).length = 5 := by rw [length_lastN]; omega
      simp only [hlen5]
      rw [if_neg hlt, if_neg hlt]
      norm_num

/-- C5: with no override, the age-derived base difficulty follows the
fixed step table on `months = (today.year-birth.year)*12 +
today.month-birth.month` (so exactly 42 months gives base 2 and 41
months gives base 1), an absent or unparsable `birth_date` gives base 5,
and `get_difficulty` always returns a value (never raises) on a profile
whose `games` key exists. -/
theorem c5_age_table (todayY todayM y m d months : Int) (p : Profile)
    (gs : List (String × GameRecord)) (game_type : String)
    (hm : months = (todayY - y) * 12 + todayM - m) :
    ((months < 42 → ageBaseDifficulty todayY todayM (some (y, m, d)) = 1) ∧
     (42 ≤ months → months < 48 →
       ageBaseDifficulty todayY todayM (some (y, m, d)) = 2) ∧
     (48 ≤ months → months < 54 →
       ageBaseDifficulty todayY todayM (some (y, m, d)) = 3) ∧
     (54 ≤ months → months < 60 →
       ageBaseDifficulty todayY todayM (some (y, m, d)) = 4) ∧
     (60 ≤ months → months < 66 →
       ageBaseDifficulty todayY todayM (some (y, m, d)) = 5) ∧
     (66 ≤ months → months < 72 →
       ageBaseDifficulty todayY todayM (some (y, m, d)) = 6) ∧
     (72 ≤ months → months < 84 →
       ageBaseDifficulty todayY todayM (some (y, m, d)) = 7) ∧
     (84 ≤ months → months < 96 →
       ageBaseDifficulty todayY todayM (some (y, m, d)) = 8) ∧
     (96 ≤ months → months < 108 →
       ageBaseDifficulty todayY todayM (some (y, m, d)) = 9) ∧
     (108 ≤ months → ageBaseDifficulty todayY todayM (some (y, m, d)) = 10)) ∧
    ageBaseDifficulty todayY todayM none = 5 ∧
    (p.games = some gs → (getDifficulty todayY todayM p game_type).isSome) := by
  subst hm
  refine ⟨?_, rfl, ?_⟩
  · unfold ageBaseDifficulty
    dsimp only
    exact ⟨fun h1 => by rw [if_pos h1],
      fun ha hb => by
      rw [if_neg (by omega : ¬((todayY - y) * 12 + todayM - m < 42)), if_pos hb],
      fun ha hb => by
      rw [if_neg (by omega : ¬((todayY - y) * 12 + todayM - m < 42)), if_neg (by omega : ¬((todayY - y) * 12 + todayM - m < 48)), if_pos hb],
      fun ha hb => by
      rw [if_neg (by omega : ¬((todayY - y) * 12 + todayM - m < 42)), if_neg (by omega : ¬((todayY - y) * 12 + todayM - m < 48)), if_neg (by omega : ¬((todayY - y) * 12 + todayM - m < 54)), if_pos hb],
      fun ha hb => by
      rw [if_neg (by omega : ¬((todayY - y) * 12 + todayM - m < 42)), if_neg (by omega : ¬((todayY - y) * 12 + todayM - m < 48)), if_neg (by omega : ¬((todayY - y) * 12 + todayM - m < 54)), if_neg (by omega : ¬((todayY - y) * 12 + todayM - m < 60)), if_pos hb],
      fun ha hb => by
      rw [if_neg (by omega : ¬((todayY - y) * 12 + todayM - m < 42)), if_neg (by omega : ¬((todayY - y) * 12 + todayM - m < 48)), if_neg (by omega : ¬((todayY - y) * 12 + todayM - m < 54)), if_neg (by omega : ¬((todayY - y) * 12 + todayM - m < 60)), if_neg (by omega : ¬((todayY - y) * 12 + todayM - m < 66)), if_pos hb],
      fun ha hb => by
      rw [if_neg (by omega : ¬((todayY - y) * 12 + todayM - m < 42)), if_neg (by omega : ¬((todayY - y) * 12 + todayM - m < 48)), if_neg (by omega : ¬((todayY - y) * 12 + todayM - m < 54)), if_neg (by omega : ¬((todayY - y) * 12 + todayM - m < 60)), if_neg (by omega : ¬((todayY - y) * 12 + todayM - m < 66)), if_neg (by omega : ¬((todayY - y) * 12 + todayM - m < 72)), if_pos hb],
      fun ha hb => by
      rw [if_neg (by omega : ¬((todayY - y) * 12 + todayM - m < 42)), if_neg (by omega : ¬((todayY - y) * 12 + todayM - m < 48)), if_neg (by omega : ¬((todayY - y) * 12 + todayM - m < 54)), if_neg (by omega : ¬((todayY - y) * 12 + todayM - m < 60)), if_neg (by omega : ¬((todayY - y) * 12 + todayM - m < 66)), if_neg (by omega : ¬((todayY - y) * 12 + todayM - m < 72)), if_neg (by omega : ¬((todayY - y) * 12 + todayM - m < 84)), if_pos hb],
      fun ha hb => by
      rw [if_neg (by omega : ¬((todayY - y) * 12 + todayM - m < 42)), if_neg (by omega : ¬((todayY - y) * 12 + todayM - m < 48)), if_neg (by omega : ¬((todayY - y) * 12 + todayM - m < 54)), if_neg (by omega : ¬((todayY - y) * 12 + todayM - m < 60)), if_neg (by omega : ¬((todayY - y) * 12 + todayM - m < 66)), if_neg (by omega : ¬((todayY - y) * 12 + todayM - m < 72)), if_neg (by omega : ¬((todayY - y) * 12 + todayM - m < 84)), if_neg (by omega : ¬((todayY - y) * 12 + todayM - m < 96)), if_pos hb],
      fun ha => by
      rw [if_neg (by omega : ¬((todayY - y) * 12 + todayM - m < 42)), if_neg (by omega : ¬((todayY - y) * 12 + todayM - m < 48)), if_neg (by omega : ¬((todayY - y) * 12 + todayM - m < 54)), if_neg (by omega : ¬((todayY - y) * 12 + todayM - m < 60)), if_neg (by omega : ¬((todayY - y) * 12 + todayM - m < 66)), if_neg (by omega : ¬((todayY - y) * 12 + todayM - m < 72)), if_neg (by omega : ¬((todayY - y) * 12 + todayM - m < 84)), if_neg (by omega : ¬((todayY - y) * 12 + todayM - m < 96)), if_neg (by omega : ¬((todayY - y) * 12 + todayM - m < 108))]⟩
  · intro hg
    unfold getDifficulty
    cases hs : p.difficulty_settings.lookup game_type with
    | some v => exact rfl
    | none =>
      dsimp only
      rw [hg]
      exact rfl

theorem c5_age_table_witness :
    ageBaseDifficulty 2026 10 (some (2023, 4, 1)) = 2 ∧
    ageBaseDifficulty 2026 10 (some (2023, 5, 1)) = 1 ∧
    ageBaseDifficulty 2026 10 none = 5 ∧
    (getDifficulty 2026 10 defaultData "counting").isSome := by
  have h := c5_age_table 2026 10 2023 4 1 42 defaultData
    (knownGameTypes.map (fun gt => (gt, defaultGameRecord))) "counting"
    (by norm_num)
  have h' := c5_age_table 2026 10 2023 5 1 41 defaultData
    (knownGameTypes.map (fun gt => (gt, defaultGameRecord))) "counting"
    (by norm_num)
  exact ⟨h.1.2.1 (by norm_num) (by norm_num), h'.1.1 (by norm_num),
    h.2.1, h.2.2 rfl⟩

theorem entriesOf_length (xs : List ResultInput) :
    ∀ r : GameRecord, (entriesOf r xs).length = xs.length := by
  induction xs with
  | nil => intro r; rfl
  | cons x rest ih =>
    intro r
    unfold entriesOf
    rw [List.length_cons, ih]
    rfl

theorem playSeq_history (xs : List ResultInput) :
    ∀ r : GameRecord, r.history.length ≤ 50 →
      (playSeq r xs).history = lastN 50 (r.history ++ entriesOf r xs) := by
  induction xs with
  | nil =>
    intro r h
    unfold playSeq entriesOf
    rw [List.foldl_nil, List.append_nil, lastN_of_length_le h]
  | cons x rest ih =>
    intro r h
    have hstep := updateGameResult_history r x.1 x.2.1 x.2.2.1 x.2.2.2
    have hlen : (updateGameResult r x.1 x.2.1 x.2.2.1 x.2.2.2).history.length
        ≤ 50 := by
      rw [hstep, length_lastN]; omega
    calc (playSeq r (x :: rest)).history
        = (playSeq (updateGameResult r x.1 x.2.1 x.2.2.1 x.2.2.2) rest).history
          := rfl
      _ = lastN 50 ((updateGameResult r x.1 x.2.1 x.2.2.1 x.2.2.2).history ++
            entriesOf (updateGameResult r x.1 x.2.1 x.2.2.1 x.2.2.2) rest) :=
          ih _ hlen
      _ = lastN 50 (lastN 50
            (r.history ++ [mkHistoryEntry r x.1 x.2.1 x.2.2.1 x.2.2.2]) ++
            entriesOf (updateGameResult r x.1 x.2.1 x.2.2.1 x.2.2.2) rest) := by
          rw [hstep]
      _ = lastN 50 ((r.history ++ [mkHistoryEntry r x.1 x.2.1 x.2.2.1 x.2.2.2])
            ++ entriesOf (updateGameResult r x.1 x.2.1 x.2.2.1 x.2.2.2) rest) :=
          lastN_append_lastN 50 _ _
      _ = lastN 50 (r.history ++ entriesOf r (x :: rest)) := by
          rw [List.append_assoc]
          rfl

/-- C6: starting from an empty history, any sequence of more than 50
`update_game_result` calls leaves exactly 50 history entries, and they
are exactly the last 50 entries appended, in call order (FIFO eviction);
this holds after every such call because the statement quantifies over
every sequence, hence over every prefix longer than 50. -/
theorem c6_history_cap (r : GameRecord) (xs : List ResultInput)
    (h0 : r.history = []) (hlen : 50 < xs.length) :
    (playSeq r xs).history = (entriesOf r xs).drop (xs.length - 50) ∧
    (playSeq r xs).history.length = 50 := by
  have hmain := playSeq_history xs r (by rw [h0]; simp)
  rw [h0, List.nil_append] at hmain
  have hE : (entriesOf r xs).length = xs.length := entriesOf_length xs r
  constructor
  · rw [hmain]
    unfold lastN
    rw [hE]
  · rw [hmain, length_lastN, hE]
    omega

/-- Fifty-one identical winning results. -/
def fiftyOneWins : List ResultInput := List.replicate 51 (true, 100, 0, none)

theorem c6_history_cap_witness :
    50 < fiftyOneWins.length ∧
    (playSeq defaultGameRecord fiftyOneWins).history.length = 50 :=
  ⟨by simp [fiftyOneWins],
   (c6_history_cap defaultGameRecord fiftyOneWins rfl (by simp [fiftyOneWins])).2⟩

theorem lookup_addMissing_self (gs : List (String × GameRecord))
    (gt : String) (r : GameRecord) :
    ((addMissing gs gt r).lookup gt).isSome := by
  unfold addMissing
  split
  · next h => exact h
  · simp [List.lookup_append, List.lookup_cons_self]

theorem lookup_addMissing_mono (gs : List (String × GameRecord))
    (gt gt' : String) (r : GameRecord) (h : (gs.lookup gt').isSome) :
    ((addMissing gs gt r).lookup gt').isSome := by
  unfold addMissing
  split
  · exact h
  · cases hc : gs.lookup gt' with
    | some v => rw [List.lookup_append, hc]; rfl
    | none => rw [hc] at h; simp at h

theorem migrateGames_has (gs : List (String × GameRecord)) :
    ((migrateGames gs).lookup "staff_reading").isSome ∧
    ((migrateGames gs).lookup "rhythm").isSome ∧
    ((migrateGames gs).lookup "interval").isSome := by
  unfold migrateGames
  dsimp only
  exact ⟨lookup_addMissing_mono _ _ _ _ (lookup_addMissing_mono _ _ _ _
      (lookup_addMissing_self _ _ _)),
    lookup_addMissing_mono _ _ _ _ (lookup_addMissing_self _ _ _),
    lookup_addMissing_self _ _ _⟩

/-- C9: `_migrate_data` is idempotent on the profile data — a second run
reproduces the result of the first — and it is a no-op on every profile
that already holds the three newest game-type ids. -/
theorem c9_migrate_idempotent (p : Profile) :
    migrateData (migrateData p) = migrateData p ∧
    (∀ gs, p.games = some gs →
      (gs.lookup "staff_reading").isSome →
      (gs.lookup "rhythm").isSome →
      (gs.lookup "interval").isSome →
      migrateData p = p) := by
  have noop : ∀ q : Profile, ∀ gs, q.games = some gs →
      (gs.lookup "staff_reading").isSome →
      (gs.lookup "rhythm").isSome →
      (gs.lookup "interval").isSome → migrateData q = q := by
    intro q gs hq h1 h2 h3
    unfold migrateData
    rw [hq]
    dsimp only
    rw [if_pos (by rw [h1, h2, h3]; rfl)]
  refine ⟨?_, fun gs h h1 h2 h3 => noop p gs h h1 h2 h3⟩
  cases hp : p.games with
  | none =>
    have hid : migrateData p = p := by
      unfold migrateData
      rw [hp]
    rw [hid]
    exact hid
  | some gs =>
    by_cases hcond : ((gs.lookup "staff_reading").isSome &&
        (gs.lookup "rhythm").isSome && (gs.lookup "interval").isSome) = true
    · have hid : migrateData p = p := by
        unfold migrateData
        rw [hp]
        dsimp only
        rw [if_pos hcond]
      rw [hid]
      exact hid
    · have h1 : migrateData p = { p with games := some (migrateGames gs) } := by
        unfold migrateData
        rw [hp]
        dsimp only
        rw [if_neg hcond]
      rw [h1]
      exact noop _ (migrateGames gs) rfl (migrateGames_has gs).1
        (migrateGames_has gs).2.1 (migrateGames_has gs).2.2

theorem c9_migrate_idempotent_witness :
    migrateData (migrateData defaultData) = migrateData defaultData ∧
    migrateData defaultData = defaultData :=
  ⟨(c9_migrate_idempotent defaultData).1,
   (c9_migrate_idempotent defaultData).2
     (knownGameTypes.map (fun gt => (gt, defaultGameRecord)))
     rfl (by decide) (by decide) (by decide)⟩

/-- An "older" save whose `games` dict happens to hold the three new ids
but none of the original ones — in particular no `counting` record. -/
def threeOnlyProfile : Profile :=
  { player_name := "p",
    total_coins := 0,
    total_stars := 0,
    games := some [("staff_reading", defaultGameRecord),
                   ("rhythm", defaultGameRecord),
                   ("interval", defaultGameRecord)],
    difficulty_settings := [],
    birth_date := none,
    achievements := [] }

/-- C2 counterexample: loading a valid save whose `games` dict contains
`staff_reading`, `rhythm` and `interval` but not `counting` makes
`_migrate_data` return immediately, so after initialization the games
mapping still has no entry for the known id `counting` — the claimed
invariant (an entry for every known id, missing ones back-filled) fails.
-/
theorem c2_counterexample :
    "counting" ∈ knownGameTypes ∧
    ((initProgress (some threeOnlyProfile)).games.map
      (fun gs => (gs.lookup "counting").isSome)) = some false := by
  exact ⟨by decide, by decide⟩

/-- C2 (amended): after initialization, a missing or unreadable save
yields an entry for every known game-type id; for a loaded profile whose
`games` key exists only the three migration targets (`staff_reading`,
`rhythm`, `interval`) are guaranteed present — other known ids are not
back-filled by `_migrate_data`. -/
theorem c2_amended (saved : Option Profile) :
    (saved = none → ∀ gt ∈ knownGameTypes,
      ∃ gs, (initProgress saved).games = some gs ∧ (gs.lookup gt).isSome) ∧
    (∀ gs₀, (loadProgress saved).games = some gs₀ →
      ∃ gs, (initProgress saved).games = some gs ∧
        (gs.lookup "staff_reading").isSome ∧
        (gs.lookup "rhythm").isSome ∧
        (gs.lookup "interval").isSome) := by
  constructor
  · rintro rfl gt hgt
    refine ⟨knownGameTypes.map (fun g => (g, defaultGameRecord)), by decide, ?_⟩
    have hall : ∀ x ∈ knownGameTypes,
        (((knownGameTypes.map (fun g => (g, defaultGameRecord))).lookup
          x).isSome) := by decide
    exact hall gt hgt
  · intro gs₀ h0
    unfold initProgress migrateData
    rw [h0]
    dsimp only
    by_cases hcond : ((gs₀.lookup "staff_reading").isSome &&
        (gs₀.lookup "rhythm").isSome && (gs₀.lookup "interval").isSome) = true
    · rw [if_pos hcond]
      refine ⟨gs₀, h0, ?_⟩
      simp only [Bool.and_eq_true] at hcond
      exact ⟨hcond.1.1, hcond.1.2, hcond.2⟩
    · rw [if_neg hcond]
      exact ⟨migrateGames gs₀, rfl, (migrateGames_has gs₀).1,
        (migrateGames_has gs₀).2.1, (migrateGames_has gs₀).2.2⟩

theorem c2_amended_witness :
    ∃ gs, (initProgress none).games = some gs ∧
      (gs.lookup "counting").isSome :=
  (c2_amended none).1 rfl "counting" (by decide)

theorem lookup_updateAt_self (gs : List (String × GameRecord)) (gt : String)
    (f : GameRecord → GameRecord) :
    (updateAt gs gt f).lookup gt = (gs.lookup gt).map f := by
  induction gs with
  | nil => rfl
  | cons p rest ih =>
    obtain ⟨k, v⟩ := p
    simp only [updateAt, List.map_cons] at ih ⊢
    by_cases hk : k = gt
    · subst hk
      rw [if_pos (by simp), List.lookup_cons_self, List.lookup_cons_self]
      rfl
    · have hb : (k == gt) = false := by
        simp [hk]
      have hb' : (gt == k) = false := by
        simp
        exact fun h => hk h.symm
      rw [if_neg (by simp [hk]), List.lookup_cons, List.lookup_cons, hb']
      exact ih

theorem calcCoins_eq (d : Int) : calcCoins d = 10 + d := by
  unfold calcCoins
  have h : (10 : ℚ) * (1 + (d : ℚ) * (1 / 10)) = ((10 + d : Int) : ℚ) := by
    push_cast
    ring
  rw [h, Int.floor_intCast]

theorem rate_up_iff (w : ℕ) (hw : w ≤ 5) :
    ((w : ℚ) / ((5:ℕ) : ℚ) ≥ 85 / 100) ↔ w = 5 := by
  have h : ((5:ℕ) : ℚ) = 5 := by norm_num
  rw [h]
  interval_cases w <;> norm_num

theorem rate_down_iff (w : ℕ) (hw : w ≤ 5) :
    ((w : ℚ) / ((5:ℕ) : ℚ) ≤ 55 / 100) ↔ w ≤ 2 := by
  have h : ((5:ℕ) : ℚ) = 5 := by norm_num
  rw [h]
  interval_cases w <;> norm_num

theorem adjustDifficulty_cd_nat (r : GameRecord) :
    (adjustDifficulty r).current_difficulty =
      if r.history.length < 5 then r.current_difficulty
      else if (lastN 5 r.history).countP (fun g => g.won) = 5 then
        min (r.current_difficulty + 1) 10
      else if (lastN 5 r.history).countP (fun g => g.won) ≤ 2 then
        max (r.current_difficulty - 1) 1
      else r.current_difficulty := by
  rw [adjustDifficulty_cd]
  simp only [minGamesBeforeAdjust, difficultyIncreaseThreshold,
    difficultyDecreaseThreshold]
  by_cases hlt : r.history.length < 5
  · rw [if_pos hlt, if_pos hlt]
  · rw [if_neg hlt, if_neg hlt]
    have hlen : (lastN 5 r.history).length = 5 := by
      rw [length_lastN]; omega
    have hw : (lastN 5 r.history).countP (fun g => g.won) ≤ 5 := by
      calc (lastN 5 r.history).countP (fun g => g.won)
          ≤ (lastN 5 r.history).length := List.countP_le_length _
        _ = 5 := hlen
    simp only [hlen]
    by_cases h1 : (lastN 5 r.history).countP (fun g => g.won) = 5
    · rw [if_pos ((rate_up_iff _ hw).mpr h1), if_pos h1]
    · rw [if_neg ((not_congr (rate_up_iff _ hw)).mpr h1), if_neg h1]
      by_cases h2 : (lastN 5 r.history).countP (fun g => g.won) ≤ 2
      · rw [if_pos ((rate_down_iff _ hw).mpr h2), if_pos h2]
      · rw [if_neg ((not_congr (rate_down_iff _ hw)).mpr h2), if_neg h2]

/-- General behaviour of `end_game` on an active session whose game type
has a record: the result is recorded, and on a win the coins follow
`calcCoins` applied to the record's `current_difficulty` as it stands
AFTER `update_game_result` ran `_adjust_difficulty`, with stars by score
thresholds; on a loss nothing is awarded; the session is cleared. -/
theorem endGame_spec (st : GMState) (s : Session)
    (gs : List (String × GameRecord)) (r : GameRecord) (won : Bool)
    (score : Int) (tt : ℚ) (details : Option String)
    (hcg : st.current_game = some s) (hg : st.progress.games = some gs)
    (hr : gs.lookup s.gtype = some r) :
    ∃ st', endGame st won score tt details = some st' ∧
      st'.current_game = none ∧
      st'.progress.games = some (updateAt gs s.gtype
        (fun r => updateGameResult r won score tt details)) ∧
      st'.progress.total_coins = st.progress.total_coins +
        (if won then
          calcCoins (updateGameResult r won score tt details).current_difficulty
        else 0) ∧
      st'.progress.total_stars = st.progress.total_stars +
        (if won then (if score ≥ 90 then 3 else if score ≥ 70 then 2 else 1)
         else 0) := by
  unfold endGame
  rw [hcg]
  dsimp only
  rw [hg]
  dsimp only
  rw [hr]
  dsimp only
  have hup : ((updateAt gs s.gtype
        (fun r => updateGameResult r won score tt details)).lookup s.gtype) =
      some (updateGameResult r won score tt details) := by
    rw [lookup_updateAt_self, hr]
    rfl
  rw [hup]
  cases won with
  | true => exact ⟨_, rfl, rfl, rfl, rfl, rfl⟩
  | false =>
    refine ⟨_, rfl, rfl, rfl, ?_, ?_⟩
    · show st.progress.total_coins = st.progress.total_coins + (0 : Int)
      rw [add_zero]
    · show st.progress.total_stars = st.progress.total_stars + (0 : Int)
      rw [add_zero]

/-- C1 (amended): on an active session whose game type has a record,
`end_game(won=True, score)` awards `coins = floor(10 * (1 +
current_difficulty * 0.1))` (the `calcCoins` formula) where
`current_difficulty` is the value AFTER the post-game adjustment
performed inside `update_game_result` — not necessarily the difficulty
the finished game was played at — and stars by `score ≥ 90 → 3`,
`score ≥ 70 → 2`, else `1`; `end_game(won=False, ...)` awards 0 coins
and 0 stars.  The claim's numeric examples hold exactly when the
adjustment leaves the difficulty unchanged. -/
theorem c1_reward_computation (st : GMState) (s : Session)
    (gs : List (String × GameRecord)) (r : GameRecord) (won : Bool)
    (score : Int) (tt : ℚ) (details : Option String)
    (hcg : st.current_game = some s) (hg : st.progress.games = some gs)
    (hr : gs.lookup s.gtype = some r) :
    ∃ st', endGame st won score tt details = some st' ∧
      st'.current_game = none ∧
      st'.progress.total_coins = st.progress.total_coins +
        (if won then
          calcCoins (updateGameResult r won score tt details).current_difficulty
        else 0) ∧
      st'.progress.total_stars = st.progress.total_stars +
        (if won then (if score ≥ 90 then 3 else if score ≥ 70 then 2 else 1)
         else 0) := by
  obtain ⟨st', h1, h2, _h3, h4, h5⟩ :=
    endGame_spec st s gs r won score tt details hcg hg hr
  exact ⟨st', h1, h2, h4, h5⟩

/-- A winning history entry played at difficulty 1. -/
def wonEntryD1 : HistoryEntry :=
  { won := true, score := 100, time_taken := 0, difficulty := 1,
    details := none }

/-- A record one win away from promotion: 4 recorded wins at difficulty
1, so the next recorded win makes the last-5 success rate 5/5 and bumps
the difficulty to 2 before the reward is computed. -/
def nearPromotionRecord : GameRecord :=
  { level := 1, games_played := 4, games_won := 4, current_difficulty := 1,
    history := List.replicate 4 wonEntryD1 }

/-- A manager state with an active `counting` session over
`nearPromotionRecord` and zero coins. -/
def nearPromotionState : GMState :=
  { progress :=
    { player_name := "p",
      total_coins := 0,
      total_stars := 0,
      games := some [("counting", nearPromotionRecord)],
      difficulty_settings := [],
      birth_date := none,
      achievements := [] },
    current_game := some { gtype := "counting", score := 0, completed := false } }

/-- C1 counterexample: the game just finished was played at difficulty 1
(as the history entry it appends records), so the claim demands
`floor(10 * (1 + 1*0.1)) = 11` coins, but `end_game` reads
`current_difficulty` only after the adjustment has raised it to 2 and
awards 12 coins. -/
theorem c1_reward_counterexample :
    ∃ st', endGame nearPromotionState true 95 0 none = some st' ∧
      st'.progress.total_coins = 12 ∧
      (∃ gs, st'.progress.games = some gs ∧
        (gs.lookup "counting").map
          (fun r => r.history.getLast?.map (fun e => e.difficulty)) =
          some (some 1)) ∧
      calcCoins 1 = 11 ∧ (12 : Int) ≠ 11 := by
  obtain ⟨st', h1, h2, h3, h4, h5⟩ := endGame_spec nearPromotionState
    { gtype := "counting", score := 0, completed := false }
    [("counting", nearPromotionRecord)] nearPromotionRecord true 95 0 none
    rfl rfl rfl
  have hd : (updateGameResult nearPromotionRecord true 95 0
      none).current_difficulty = 2 := by
    unfold updateGameResult
    dsimp only
    rw [adjustDifficulty_cd_nat]
    decide
  refine ⟨st', h1, ?_, ?_, ?_, by decide⟩
  · rw [h4, hd, calcCoins_eq]
    decide
  · refine ⟨_, h3, ?_⟩
    rw [lookup_updateAt_self]
    have hl : ([("counting", nearPromotionRecord)].lookup "counting") =
        some nearPromotionRecord := rfl
    rw [hl]
    dsimp only [Option.map]
    rw [updateGameResult_history, getLast?_lastN_concat 50 (by omega)]
    rfl
  · rw [calcCoins_eq]
    decide

/-- A losing history entry played at difficulty 5. -/
def lostEntryD5 : HistoryEntry :=
  { won := false, score := 0, time_taken := 0, difficulty := 5,
    details := none }

/-- A winning history entry played at difficulty 5. -/
def wonEntryD5 : HistoryEntry :=
  { won := true, score := 100, time_taken := 0, difficulty := 5,
    details := none }

/-- A record at difficulty 5 whose last-5 success rate stays strictly
between the thresholds after one more win, so the adjustment leaves the
difficulty at 5. -/
def steadyRecord : GameRecord :=
  { level := 1, games_played := 5, games_won := 3, current_difficulty := 5,
    history := [wonEntryD5, lostEntryD5, lostEntryD5, wonEntryD5, wonEntryD5] }

/-- A manager state with an active `counting` session over
`steadyRecord` and zero coins and stars. -/
def steadyState : GMState :=
  { progress :=
    { player_name := "p",
      total_coins := 0,
      total_stars := 0,
      games := some [("counting", steadyRecord)],
      difficulty_settings := [],
      birth_date := none,
      achievements := [] },
    current_game := some { gtype := "counting", score := 0, completed := false } }

theorem c1_reward_computation_witness :
    ∃ st', endGame steadyState true 95 0 none = some st' ∧
      st'.progress.total_coins = 15 ∧ st'.progress.total_stars = 3 := by
  obtain ⟨st', h1, h2, h3, h4⟩ := c1_reward_computation steadyState
    { gtype := "counting", score := 0, completed := false }
    [("counting", steadyRecord)] steadyRecord true 95 0 none rfl rfl rfl
  have hd : (updateGameResult steadyRecord true 95 0
      none).current_difficulty = 5 := by
    unfold updateGameResult
    dsimp only
    rw [adjustDifficulty_cd_nat]
    decide
  refine ⟨st', h1, ?_, ?_⟩
  · rw [h3, hd, calcCoins_eq]
    decide
  · rw [h4]
    decide
